import Mathlib

/-!
Verification of the TwinSync Spot companion app against its specification.

This file shallowly embeds the Python modules that the checked properties
talk about:

* `app/core/gamification.py` — XP rewards, level thresholds, achievements,
  daily challenges (pure functions over ints, strings and a fixed table);
* `app/core/memory.py` — the pattern-memory engine (counters over the check
  history);
* `app/camera/manager.py` — prefix-based adapter dispatch;
* `app/camera/ha_adapter.py` — the snapshot retry loop;
* `app/core/analyzer.py` — the analyzer's error-result boundary;
* `app/db/sqlite.py` — API-token verification and revocation.

Python integers become `Int` (or `Nat` where the source value is a count),
Python floats on the single arithmetic path a claim touches become `ℚ`,
`None`-able values become `Option`, and Python dicts/Counters become
insertion-ordered association lists, so that the stable iteration order of
CPython dicts (which `Counter.most_common` inherits through a stable sort)
is preserved.  Wall-clock, network and database effects are passed in as
explicit environment values.
-/

namespace TwinSync

/-! ## Gamification: `app/core/gamification.py` -/

/-- One row of the `LEVELS` table: level number, display name, emoji and the
XP threshold required to reach it. -/
structure LevelDef where
  level : Nat
  lname : String
  emoji : String
  xp_required : Int
deriving DecidableEq, Repr

/-- The `LEVELS` list from `gamification.py` (10 levels, increasing
`xp_required`). -/
def LEVELS : List LevelDef :=
  [ ⟨1, "Tidy Novice", "🌱", 0⟩,
    ⟨2, "Clutter Buster", "🧹", 250⟩,
    ⟨3, "Order Apprentice", "📚", 600⟩,
    ⟨4, "Chaos Tamer", "⚔️", 1000⟩,
    ⟨5, "Space Organizer", "🗂️", 1500⟩,
    ⟨6, "Zen Master", "🧘", 2200⟩,
    ⟨7, "Tidiness Sage", "🧙", 3000⟩,
    ⟨8, "Order Keeper", "🛡️", 4000⟩,
    ⟨9, "Harmony Champion", "🏆", 5500⟩,
    ⟨10, "Tidiness Transcended ✨", "✨", 7500⟩ ]

/-- The `for i, level in enumerate(LEVELS)` loop of `calculate_level`:
as long as `xp_total >= level["xp_required"]` it records the current level
and the following one (`LEVELS[i+1]` when it exists), and `break`s at the
first level whose requirement is not met. -/
def levelWalk (xp : Int) : List LevelDef → LevelDef × Option LevelDef → LevelDef × Option LevelDef
  | [], acc => acc
  | l :: rest, acc =>
      if l.xp_required ≤ xp then levelWalk xp rest (l, rest.head?) else acc

/-- The dict returned by `calculate_level` (the fields a claim mentions). -/
structure LevelResult where
  level : Nat
  lname : String
  emoji : String
  xp_to_next_level : Int
  xp_progress_percent : ℚ
deriving DecidableEq, Repr

/-- The `current_level, next_level` pair `calculate_level` obtains by
walking `LEVELS`, starting from `current_level = LEVELS[0]` and
`next_level = LEVELS[1]`. -/
def levelWalkFull (xp : Int) : LevelDef × Option LevelDef :=
  levelWalk xp LEVELS (LEVELS.headD ⟨1, "Tidy Novice", "🌱", 0⟩, LEVELS.get? 1)

/-- `calculate_level(xp_total)` from `gamification.py`.  The float progress
percentage is modelled in `ℚ`. -/
def calculate_level (xp_total : Int) : LevelResult :=
  let cur_nxt := levelWalkFull xp_total
  let current_level := cur_nxt.1
  let next_level := cur_nxt.2
  let pair : Int × ℚ :=
    match next_level with
    | none => (0, 100)
    | some nl =>
        let xp_in_level : Int := xp_total - current_level.xp_required
        let xp_for_level : Int := nl.xp_required - current_level.xp_required
        let to_next : Int := nl.xp_required - xp_total
        (to_next,
          if 0 < xp_for_level then ((xp_in_level : ℚ) / (xp_for_level : ℚ)) * 100 else 100)
  ⟨current_level.level, current_level.lname, current_level.emoji, pair.1, min 100 pair.2⟩

/-- Indicator of a level threshold having been reached. -/
def levelIndicator (c xp : Int) : Nat := if xp < c then 0 else 1

/-- `XP_REWARDS.get(action, 0)`: the fixed base-reward table. -/
def XP_REWARDS_get (action : String) : Int :=
  if action = "sorted" then 50
  else if action = "quick_reset" then 75
  else if action = "reset" then 50
  else if action = "streak_day" then 25
  else if action = "first_check" then 100
  else if action = "perfect_day" then 200
  else 0

/-- `calculate_xp_for_action(action, streak_days, minutes_since_check)` from
`gamification.py`: base reward, plus for `"reset"` a streak bonus
`min(streak_days * 25, 250)` when `streak_days > 0` and a speed bonus
(+50 when ≤ 5 minutes, +25 when ≤ 30 minutes). -/
def calculate_xp_for_action (action : String) (streak_days : Int)
    (minutes_since_check : Option Int) : Int :=
  let base0 := XP_REWARDS_get action
  let base1 :=
    if action = "reset" ∧ 0 < streak_days then base0 + min (streak_days * 25) 250 else base0
  if action = "reset" then
    match minutes_since_check with
    | some m => if m ≤ 5 then base1 + 50 else if m ≤ 30 then base1 + 25 else base1
    | none => base1
  else base1

/-- The parts of an `ACHIEVEMENTS` entry the unlock predicate reads. -/
structure Achievement where
  aname : String
  condition : String
  xp_bonus : Int
deriving DecidableEq, Repr

/-- The `ACHIEVEMENTS` dict from `gamification.py`, as an insertion-ordered
association list from achievement id to entry. -/
def ACHIEVEMENTS : List (String × Achievement) :=
  [ ("first_blood", ⟨"First Blood", "first_reset", 50⟩),
    ("streak_3", ⟨"Hat Trick", "streak_3", 75⟩),
    ("streak_7", ⟨"Week Warrior", "streak_7", 150⟩),
    ("streak_30", ⟨"Monthly Master", "streak_30", 500⟩),
    ("early_bird", ⟨"Early Bird", "reset_before_7am", 50⟩),
    ("night_owl", ⟨"Night Owl", "reset_after_11pm", 50⟩),
    ("speed_demon", ⟨"Speed Demon", "reset_under_5min", 100⟩),
    ("perfectionist", ⟨"Perfectionist", "perfect_day", 200⟩),
    ("centurion", ⟨"Centurion", "100_resets", 300⟩),
    ("usual_suspect", ⟨"Usual Suspect Hunter", "recurring_10", 75⟩),
    ("multi_spot", ⟨"Multi-Tasker", "reset_3_spots", 100⟩),
    ("comeback", ⟨"Comeback Kid", "comeback", 100⟩) ]

/-- `dict.get` on an insertion-ordered association list. -/
def dictGet {α : Type} (l : List (String × α)) (k : String) : Option α :=
  match l with
  | [] => none
  | (k0, v) :: rest => if k0 = k then some v else dictGet rest k

/-- The keyword context handed to `check_achievement_unlock`.  Only the
`.hour` field of the Python `reset_time` datetime is ever read, so the reset
time is represented by that hour. -/
structure UnlockCtx where
  streak_days : Int
  total_resets : Int
  reset_hour : Option Nat
  minutes_since_check : Option Int
  recurring_item_count : Int
  spots_reset_in_session : Int
  lost_streak_days : Int
deriving DecidableEq, Repr

/-- `check_achievement_unlock(achievement_id, ...)` from `gamification.py`:
looks the id up in `ACHIEVEMENTS` (unknown id → `False`) and dispatches on
the entry's `condition` string; the `"perfect_day"` branch returns `False`
("checked externally"), and an unmatched condition falls through to
`False`. -/
def check_achievement_unlock (achievement_id : String) (ctx : UnlockCtx) : Bool :=
  match dictGet ACHIEVEMENTS achievement_id with
  | none => false
  | some a =>
      let condition := a.condition
      if condition = "first_reset" then decide (1 ≤ ctx.total_resets)
      else if condition = "streak_3" then decide (3 ≤ ctx.streak_days)
      else if condition = "streak_7" then decide (7 ≤ ctx.streak_days)
      else if condition = "streak_30" then decide (30 ≤ ctx.streak_days)
      else if condition = "reset_before_7am" then
        match ctx.reset_hour with
        | some h => decide (h < 7)
        | none => false
      else if condition = "reset_after_11pm" then
        match ctx.reset_hour with
        | some h => decide (23 ≤ h)
        | none => false
      else if condition = "reset_under_5min" then
        match ctx.minutes_since_check with
        | some m => decide (m ≤ 5)
        | none => false
      else if condition = "perfect_day" then false
      else if condition = "100_resets" then decide (100 ≤ ctx.total_resets)
      else if condition = "recurring_10" then decide (10 ≤ ctx.recurring_item_count)
      else if condition = "reset_3_spots" then decide (3 ≤ ctx.spots_reset_in_session)
      else if condition = "comeback" then
        decide (5 ≤ ctx.lost_streak_days) && decide (1 ≤ ctx.streak_days)
      else false

/-- One entry of the `DAILY_CHALLENGES` list. -/
structure Challenge where
  cid : String
  cname : String
  emoji : String
  xp_reward : Int
deriving DecidableEq, Repr

/-- The fixed `DAILY_CHALLENGES` list from `gamification.py` (7 entries). -/
def DAILY_CHALLENGES : List Challenge :=
  [ ⟨"speed_run", "Speed Run", "⏱️", 100⟩,
    ⟨"morning_routine", "Morning Routine", "☀️", 150⟩,
    ⟨"zero_items", "Spot Zero", "🎯", 75⟩,
    ⟨"triple_check", "Triple Check", "3️⃣", 100⟩,
    ⟨"reset_all", "Clean Sweep", "🧹", 200⟩,
    ⟨"quick_fix", "Quick Fix", "🔧", 75⟩,
    ⟨"streak_saver", "Streak Saver", "🛡️", 100⟩ ]

/-- `get_daily_challenge(date)` with an explicit date, represented by its
`year` and day-of-year (`date.timetuple().tm_yday`): selects
`DAILY_CHALLENGES[(year*365 + day_of_year) % len(DAILY_CHALLENGES)]`. -/
def get_daily_challenge (year day_of_year : Nat) : Challenge :=
  DAILY_CHALLENGES.get
    ⟨(year * 365 + day_of_year) % DAILY_CHALLENGES.length,
     Nat.mod_lt _ (by norm_num [DAILY_CHALLENGES])⟩

/-! ## Memory engine: `app/core/memory.py`

A check record is represented by the fields the engine reads: the weekday
name (`datetime.strftime("%A")` of the check's timestamp), the hour
(`datetime.hour`), the status string and the raw names of its to-sort items
(for dict-shaped items, the `"item"` field; for plain strings, the string
itself).  Timestamps are assumed parseable, so the `except` skip paths of
the source do not fire. -/

/-- One check record as the memory engine reads it. -/
structure CheckRec where
  weekday : String
  hour : Nat
  status : String
  to_sort : List String
deriving DecidableEq, Repr

/-- Python `.lower().strip()` on the character sequence of a string. -/
def pyLowerStrip (s : String) : String :=
  let low := s.data.map Char.toLower
  String.mk ((low.dropWhile Char.isWhitespace).reverse.dropWhile Char.isWhitespace).reverse

/-- `Counter[name] += 1` on an insertion-ordered association list. -/
def bump : List (String × Nat) → String → List (String × Nat)
  | [], j => [(j, 1)]
  | (k0, n) :: rest, j =>
      if k0 = j then (k0, n + 1) :: rest else (k0, n) :: bump rest j

def alookup : List (String × Nat) → String → Option Nat
  | [], _ => none
  | (k0, n) :: rest, k => if k0 = k then some n else alookup rest k

def keysOf (l : List (String × Nat)) : List String := l.map Prod.fst

def RECURRING_THRESHOLD : Nat := 3

def bumpAll (acc : List (String × Nat)) : List String → List (String × Nat)
  | [] => acc
  | it :: rest =>
      let name := pyLowerStrip it
      bumpAll (if name ≠ "" then bump acc name else acc) rest

def countItemsFrom (acc : List (String × Nat)) : List CheckRec → List (String × Nat)
  | [] => acc
  | c :: rest => countItemsFrom (bumpAll acc c.to_sort) rest

def count_recurring_items (checks : List CheckRec) : List (String × Nat) :=
  (countItemsFrom [] checks).filter (fun p => RECURRING_THRESHOLD ≤ p.2)

def distinctCheckCount (checks : List CheckRec) (name : String) : Nat :=
  checks.countP (fun c => c.to_sort.any (fun it => pyLowerStrip it == name))

def cexChecksC1 : List CheckRec := [⟨"Monday", 9, "needs_attention", ["mug", "mug", "mug"]⟩]

def mc1Go (best : String × Nat) : List (String × Nat) → String × Nat
  | [] => best
  | p :: rest => if best.2 < p.2 then mc1Go p rest else mc1Go best rest

def mostCommon1 : List (String × Nat) → Option (String × Nat)
  | [] => none
  | p :: rest => some (mc1Go p rest)

def dayCountsFrom (st : String) (acc : List (String × Nat)) : List CheckRec → List (String × Nat)
  | [] => acc
  | c :: rest => dayCountsFrom st (if c.status = st then bump acc c.weekday else acc) rest

def find_best_day (checks : List CheckRec) : Option String :=
  (mostCommon1 (dayCountsFrom "sorted" [] checks)).map Prod.fst

def find_worst_day (checks : List CheckRec) : Option String :=
  (mostCommon1 (dayCountsFrom "needs_attention" [] checks)).map Prod.fst

def weekdaysInOrder (checks : List CheckRec) : List String :=
  checks.foldl (fun acc c => if c.weekday ∈ acc then acc else acc ++ [c.weekday]) []

def dayStatusCount (checks : List CheckRec) (st day : String) : Nat :=
  checks.countP (fun c => c.status == st && c.weekday == day)

def dayTotalCount (checks : List CheckRec) (day : String) : Nat :=
  checks.countP (fun c => c.weekday == day)

/-- Spec-modelled best day: among weekdays with at least 3 samples, the one
with the highest sorted-ratio, first seen winning ties (ratios compared by
cross-multiplication). -/
def specBestDay (checks : List CheckRec) : Option String :=
  let qual := (weekdaysInOrder checks).filter (fun d => 3 ≤ dayTotalCount checks d)
  let better : String → String → Bool := fun d e =>
    dayStatusCount checks "sorted" e * dayTotalCount checks d <
      dayStatusCount checks "sorted" d * dayTotalCount checks e
  match qual with
  | [] => none
  | d :: rest => some (rest.foldl (fun best e => if better e best then e else best) d)

def mkChecks (day : String) (st : String) (n : Nat) : List CheckRec :=
  List.replicate n ⟨day, 10, st, []⟩

def cexChecksC2 : List CheckRec :=
  mkChecks "Monday" "sorted" 4 ++ mkChecks "Monday" "needs_attention" 6 ++
    mkChecks "Tuesday" "sorted" 3

def KeysNodup (l : List (String × Nat)) : Prop := (keysOf l).Nodup

def itemsOccL (items : List String) (k : String) : Nat :=
  items.countP (fun it => pyLowerStrip it == k)

def occCount (checks : List CheckRec) (k : String) : Nat :=
  (checks.map (fun c => itemsOccL c.to_sort k)).sum

/-! ## Camera manager: `app/camera/manager.py` -/

/-- The camera adapters the manager dispatches to. -/
inductive Adapter where
  | ha
  | rtsp
  | mjpeg
  | onvif
deriving DecidableEq, Repr

/-- Python `str.startswith(prefix)` on the character sequence. -/
def pyStartsWith (s p : String) : Bool := p.data.isPrefixOf s.data

/-- The `self._adapters` dict of `CameraManager.__init__`, in insertion
order: prefix to adapter. -/
def adapterPrefixes : List (String × Adapter) :=
  [("camera.", Adapter.ha), ("rtsp_", Adapter.rtsp),
   ("mjpeg_", Adapter.mjpeg), ("onvif_", Adapter.onvif)]

/-- `CameraManager._get_adapter_for_camera`: first adapter whose prefix
matches, defaulting to the Home Assistant adapter. -/
def get_adapter_for_camera (camera_id : String) : Adapter :=
  match adapterPrefixes.find? (fun p => pyStartsWith camera_id p.1) with
  | some p => p.2
  | none => Adapter.ha

/-! ## Home Assistant snapshot retry: `app/camera/ha_adapter.py` -/

/-- The detailed error attached to a failed snapshot attempt (the fields the
retry logic reads). -/
structure SnapshotError where
  error_type : String
  message : String
deriving DecidableEq, Repr

/-- Outcome of one `_get_snapshot_once` call: image bytes, or an error. -/
inductive SnapOutcome where
  | ok (data : List Nat)
  | fail (e : SnapshotError)
deriving DecidableEq, Repr

/-- What a full `get_snapshot_with_error` run did: the returned
`(data, error)` pair, the number of attempts made, and the backoff sleeps
(in seconds) performed between attempts. -/
structure SnapRun where
  data : Option (List Nat)
  error : Option SnapshotError
  attempts : Nat
  sleeps : List Nat
deriving DecidableEq, Repr

def MAX_RETRIES : Nat := 3

def BASE_BACKOFF_SECONDS : Nat := 1

/-- The `for attempt in range(MAX_RETRIES)` loop of
`HACamera.get_snapshot_with_error`, with the per-attempt outcomes supplied
by the environment: first success returns the data, an `auth`/`not_found`
error breaks immediately, any other failure sleeps
`BASE_BACKOFF_SECONDS * 2**attempt` (unless this was the final attempt) and
retries; exhaustion returns the last error. -/
def snapLoop (outcomes : Nat → SnapOutcome) :
    Nat → Nat → Option SnapshotError → List Nat → SnapRun
  | attempt, 0, last, sleeps => ⟨none, last, attempt, sleeps⟩
  | attempt, r + 1, last, sleeps =>
      match outcomes attempt with
      | SnapOutcome.ok d => ⟨some d, none, attempt + 1, sleeps⟩
      | SnapOutcome.fail e =>
          if e.error_type = "auth" ∨ e.error_type = "not_found" then
            ⟨none, some e, attempt + 1, sleeps⟩
          else if 0 < r then
            snapLoop outcomes (attempt + 1) r (some e)
              (sleeps ++ [BASE_BACKOFF_SECONDS * 2 ^ attempt])
          else
            snapLoop outcomes (attempt + 1) r (some e) sleeps

/-- `HACamera.get_snapshot_with_error(entity_id)`: missing or empty token
fails fast with an `auth` error and no attempt; otherwise the retry loop
runs. -/
def get_snapshot_with_error (token : Option String) (outcomes : Nat → SnapOutcome) : SnapRun :=
  if token = none ∨ token = some "" then
    ⟨none, some ⟨"auth", "No Home Assistant token configured. Please configure in Settings."⟩,
      0, []⟩
  else
    snapLoop outcomes 0 MAX_RETRIES none []

/-- An attempt that failed with a transient (retryable) error. -/
def nonFatalOutcome (o : SnapOutcome) : Prop :=
  ∃ e, o = SnapOutcome.fail e ∧ ¬(e.error_type = "auth" ∨ e.error_type = "not_found")

/-- The error carried by a failed outcome. -/
def errOf (o : SnapOutcome) : Option SnapshotError :=
  match o with
  | SnapOutcome.ok _ => none
  | SnapOutcome.fail e => some e

/-- Attempt outcomes with a transient network failure first, then success. -/
def cexOutcomesC7 : Nat → SnapOutcome := fun k =>
  if k = 0 then SnapOutcome.fail ⟨"network", "connection refused"⟩ else SnapOutcome.ok [42]

/-! ## Analyzer error boundary: `app/core/analyzer.py` -/

/-- The fields of a `CheckResult` the analyzer-boundary claims read. -/
structure CheckResult where
  status : String
  error_message : Option String
  api_response_time : Option ℚ
  to_sort : List String
deriving DecidableEq, Repr

/-- What the HTTP POST to the vision API did: a response with a status code
and body text, an `aiohttp.ClientError`, or any other exception. -/
inductive HttpOutcome where
  | resp (status : Nat) (body : String)
  | clientError (msg : String)
  | otherExc (msg : String)
deriving DecidableEq, Repr

/-- What `_parse_response` did on the 200 response: a parsed result, or an
exception (caught by the surrounding `except Exception`). -/
inductive ParseOutcome where
  | ok (r : CheckResult)
  | exc (msg : String)
deriving DecidableEq, Repr

/-- The environment of one `SpotAnalyzer.analyze` call: the configured API
key, the HTTP outcome, the elapsed times measured at the response and at an
exception handler, and the parse outcome. -/
structure AnalyzeEnv where
  api_key : Option String
  http : HttpOutcome
  elapsed : ℚ
  excElapsed : ℚ
  parse : ParseOutcome
deriving DecidableEq, Repr

/-- `SpotAnalyzer.analyze`: missing/empty API key fails fast; HTTP 429,
any non-200 status, a transport error and any other exception all return an
error-status result carrying the elapsed latency; a 200 response is parsed
and stamped with the latency.  (The post-processing of `to_sort` with
memory data on the success path is not modelled: the claims only concern
the error boundary.) -/
def analyze (env : AnalyzeEnv) : CheckResult :=
  if env.api_key = none ∨ env.api_key = some "" then
    { status := "error",
      error_message := some "Gemini API key not configured. Please configure in Settings.",
      api_response_time := none, to_sort := [] }
  else
    match env.http with
    | HttpOutcome.resp status body =>
        if status = 429 then
          { status := "error",
            error_message := some "API quota exceeded. Please try again later.",
            api_response_time := some env.elapsed, to_sort := [] }
        else if ¬(status = 200) then
          { status := "error",
            error_message := some ("API error: " ++ toString status ++ " - " ++ body),
            api_response_time := some env.elapsed, to_sort := [] }
        else
          match env.parse with
          | ParseOutcome.ok r => { r with api_response_time := some env.elapsed }
          | ParseOutcome.exc m =>
              { status := "error", error_message := some ("Unexpected error: " ++ m),
                api_response_time := some env.excElapsed, to_sort := [] }
    | HttpOutcome.clientError m =>
        { status := "error", error_message := some ("Network error: " ++ m),
          api_response_time := some env.excElapsed, to_sort := [] }
    | HttpOutcome.otherExc m =>
        { status := "error", error_message := some ("Unexpected error: " ++ m),
          api_response_time := some env.excElapsed, to_sort := [] }

/-! ## API tokens: `app/db/sqlite.py` -/

/-- One row of the `api_tokens` table (the columns the claims read). -/
structure TokenRow where
  tid : Nat
  token : String
  is_active : Bool
deriving DecidableEq, Repr

/-- `Database.verify_api_token(token)`: `SELECT id, is_active FROM
api_tokens WHERE token = ?` plus `fetchone` is the first row with that
token value; a missing row or a cleared `is_active` flag verifies `False`,
otherwise `True` (the `last_used` update does not affect the result). -/
def verify_api_token (db : List TokenRow) (t : String) : Bool :=
  match db.find? (fun r => r.token == t) with
  | none => false
  | some r => r.is_active

/-- `Database.revoke_api_token(token_id)`: `UPDATE api_tokens SET
is_active = 0 WHERE id = ?`; returns the updated table and the
`rowcount > 0` success flag. -/
def revoke_api_token (db : List TokenRow) (token_id : Nat) : List TokenRow × Bool :=
  (db.map (fun r => if r.tid = token_id then { r with is_active := false } else r),
   db.any (fun r => r.tid == token_id))

def cexTokens : List TokenRow := [⟨1, "tokA", true⟩, ⟨2, "tokB", true⟩]

/-- The speed bonus added by `calculate_xp_for_action` for a `"reset"`
action: +50 when at most 5 minutes since the check, +25 when more than 5
but at most 30, else nothing. -/
def speed_bonus (minutes_since_check : Option Int) : Int :=
  match minutes_since_check with
  | none => 0
  | some m => if m ≤ 5 then 50 else if m ≤ 30 then 25 else 0

/-- Interval characterization of the `LEVELS` walk: the current level is
the highest whose threshold is met, the next level the following one. -/
lemma levelWalkFull_eq (xp : Int) :
    levelWalkFull xp =
      if xp < 250 then ((⟨1, "Tidy Novice", "🌱", 0⟩ : LevelDef), some (⟨2, "Clutter Buster", "🧹", 250⟩ : LevelDef))
      else if xp < 600 then ((⟨2, "Clutter Buster", "🧹", 250⟩ : LevelDef), some (⟨3, "Order Apprentice", "📚", 600⟩ : LevelDef))
      else if xp < 1000 then ((⟨3, "Order Apprentice", "📚", 600⟩ : LevelDef), some (⟨4, "Chaos Tamer", "⚔️", 1000⟩ : LevelDef))
      else if xp < 1500 then ((⟨4, "Chaos Tamer", "⚔️", 1000⟩ : LevelDef), some (⟨5, "Space Organizer", "🗂️", 1500⟩ : LevelDef))
      else if xp < 2200 then ((⟨5, "Space Organizer", "🗂️", 1500⟩ : LevelDef), some (⟨6, "Zen Master", "🧘", 2200⟩ : LevelDef))
      else if xp < 3000 then ((⟨6, "Zen Master", "🧘", 2200⟩ : LevelDef), some (⟨7, "Tidiness Sage", "🧙", 3000⟩ : LevelDef))
      else if xp < 4000 then ((⟨7, "Tidiness Sage", "🧙", 3000⟩ : LevelDef), some (⟨8, "Order Keeper", "🛡️", 4000⟩ : LevelDef))
      else if xp < 5500 then ((⟨8, "Order Keeper", "🛡️", 4000⟩ : LevelDef), some (⟨9, "Harmony Champion", "🏆", 5500⟩ : LevelDef))
      else if xp < 7500 then ((⟨9, "Harmony Champion", "🏆", 5500⟩ : LevelDef), some (⟨10, "Tidiness Transcended ✨", "✨", 7500⟩ : LevelDef))
      else ((⟨10, "Tidiness Transcended ✨", "✨", 7500⟩ : LevelDef), none) := by
  by_cases h1 : xp < 250
  · rw [if_pos h1]
    by_cases h0 : (0 : Int) ≤ xp
    · simp only [levelWalkFull, LEVELS, levelWalk, List.head?, List.get?, List.headD, h0,
        show ¬((250 : Int) ≤ xp) from by omega, ite_true, ite_false, if_true, if_false]
    · simp only [levelWalkFull, LEVELS, levelWalk, List.head?, List.get?, List.headD,
        h0, ite_false, if_false]
  by_cases h2 : xp < 600
  · rw [if_neg h1, if_pos h2]
    simp only [levelWalkFull, LEVELS, levelWalk, List.head?, List.get?, List.headD,
        show (0 : Int) ≤ xp from by omega,
        show (250 : Int) ≤ xp from by omega,
        show ¬((600 : Int) ≤ xp) from by omega, ite_true, ite_false, if_true, if_false]
  by_cases h3 : xp < 1000
  · rw [if_neg h1, if_neg h2, if_pos h3]
    simp only [levelWalkFull, LEVELS, levelWalk, List.head?, List.get?, List.headD,
        show (0 : Int) ≤ xp from by omega,
        show (250 : Int) ≤ xp from by omega,
        show (600 : Int) ≤ xp from by omega,
        show ¬((1000 : Int) ≤ xp) from by omega, ite_true, ite_false, if_true, if_false]
  by_cases h4 : xp < 1500
  · rw [if_neg h1, if_neg h2, if_neg h3, if_pos h4]
    simp only [levelWalkFull, LEVELS, levelWalk, List.head?, List.get?, List.headD,
        show (0 : Int) ≤ xp from by omega,
        show (250 : Int) ≤ xp from by omega,
        show (600 : Int) ≤ xp from by omega,
        show (1000 : Int) ≤ xp from by omega,
        show ¬((1500 : Int) ≤ xp) from by omega, ite_true, ite_false, if_true, if_false]
  by_cases h5 : xp < 2200
  · rw [if_neg h1, if_neg h2, if_neg h3, if_neg h4, if_pos h5]
    simp only [levelWalkFull, LEVELS, levelWalk, List.head?, List.get?, List.headD,
        show (0 : Int) ≤ xp from by omega,
        show (250 : Int) ≤ xp from by omega,
        show (600 : Int) ≤ xp from by omega,
        show (1000 : Int) ≤ xp from by omega,
        show (1500 : Int) ≤ xp from by omega,
        show ¬((2200 : Int) ≤ xp) from by omega, ite_true, ite_false, if_true, if_false]
  by_cases h6 : xp < 3000
  · rw [if_neg h1, if_neg h2, if_neg h3, if_neg h4, if_neg h5, if_pos h6]
    simp only [levelWalkFull, LEVELS, levelWalk, List.head?, List.get?, List.headD,
        show (0 : Int) ≤ xp from by omega,
        show (250 : Int) ≤ xp from by omega,
        show (600 : Int) ≤ xp from by omega,
        show (1000 : Int) ≤ xp from by omega,
        show (1500 : Int) ≤ xp from by omega,
        show (2200 : Int) ≤ xp from by omega,
        show ¬((3000 : Int) ≤ xp) from by omega, ite_true, ite_false, if_true, if_false]
  by_cases h7 : xp < 4000
  · rw [if_neg h1, if_neg h2, if_neg h3, if_neg h4, if_neg h5, if_neg h6, if_pos h7]
    simp only [levelWalkFull, LEVELS, levelWalk, List.head?, List.get?, List.headD,
        show (0 : Int) ≤ xp from by omega,
        show (250 : Int) ≤ xp from by omega,
        show (600 : Int) ≤ xp from by omega,
        show (1000 : Int) ≤ xp from by omega,
        show (1500 : Int) ≤ xp from by omega,
        show (2200 : Int) ≤ xp from by omega,
        show (3000 : Int) ≤ xp from by omega,
        show ¬((4000 : Int) ≤ xp) from by omega, ite_true, ite_false, if_true, if_false]
  by_cases h8 : xp < 5500
  · rw [if_neg h1, if_neg h2, if_neg h3, if_neg h4, if_neg h5, if_neg h6, if_neg h7, if_pos h8]
    simp only [levelWalkFull, LEVELS, levelWalk, List.head?, List.get?, List.headD,
        show (0 : Int) ≤ xp from by omega,
        show (250 : Int) ≤ xp from by omega,
        show (600 : Int) ≤ xp from by omega,
        show (1000 : Int) ≤ xp from by omega,
        show (1500 : Int) ≤ xp from by omega,
        show (2200 : Int) ≤ xp from by omega,
        show (3000 : Int) ≤ xp from by omega,
        show (4000 : Int) ≤ xp from by omega,
        show ¬((5500 : Int) ≤ xp) from by omega, ite_true, ite_false, if_true, if_false]
  by_cases h9 : xp < 7500
  · rw [if_neg h1, if_neg h2, if_neg h3, if_neg h4, if_neg h5, if_neg h6, if_neg h7, if_neg h8, if_pos h9]
    simp only [levelWalkFull, LEVELS, levelWalk, List.head?, List.get?, List.headD,
        show (0 : Int) ≤ xp from by omega,
        show (250 : Int) ≤ xp from by omega,
        show (600 : Int) ≤ xp from by omega,
        show (1000 : Int) ≤ xp from by omega,
        show (1500 : Int) ≤ xp from by omega,
        show (2200 : Int) ≤ xp from by omega,
        show (3000 : Int) ≤ xp from by omega,
        show (4000 : Int) ≤ xp from by omega,
        show (5500 : Int) ≤ xp from by omega,
        show ¬((7500 : Int) ≤ xp) from by omega, ite_true, ite_false, if_true, if_false]
  · rw [if_neg h1, if_neg h2, if_neg h3, if_neg h4, if_neg h5, if_neg h6, if_neg h7, if_neg h8, if_neg h9]
    simp only [levelWalkFull, LEVELS, levelWalk, List.head?, List.get?, List.headD,
        show (0 : Int) ≤ xp from by omega,
        show (250 : Int) ≤ xp from by omega,
        show (600 : Int) ≤ xp from by omega,
        show (1000 : Int) ≤ xp from by omega,
        show (1500 : Int) ≤ xp from by omega,
        show (2200 : Int) ≤ xp from by omega,
        show (3000 : Int) ≤ xp from by omega,
        show (4000 : Int) ≤ xp from by omega,
        show (5500 : Int) ≤ xp from by omega,
        show (7500 : Int) ≤ xp from by omega, ite_true, ite_false, if_true, if_false]

/-- The `level` field only depends on the walk's current level. -/
lemma calculate_level_level (xp : Int) :
    (calculate_level xp).level = (levelWalkFull xp).1.level := rfl

/-- Closed form of the level number as a function of the XP total. -/
lemma level_formula (xp : Int) : (calculate_level xp).level =
    if xp < 250 then 1 else if xp < 600 then 2 else if xp < 1000 then 3
    else if xp < 1500 then 4 else if xp < 2200 then 5 else if xp < 3000 then 6
    else if xp < 4000 then 7 else if xp < 5500 then 8 else if xp < 7500 then 9
    else 10 := by
  rw [calculate_level_level, levelWalkFull_eq]
  split_ifs <;> rfl

/-- The level number is one plus the number of strictly positive thresholds
reached. -/
lemma level_eq_sum (xp : Int) : (calculate_level xp).level =
    1 + levelIndicator 250 xp + levelIndicator 600 xp + levelIndicator 1000 xp +
      levelIndicator 1500 xp + levelIndicator 2200 xp + levelIndicator 3000 xp +
      levelIndicator 4000 xp + levelIndicator 5500 xp + levelIndicator 7500 xp := by
  rw [level_formula]
  unfold levelIndicator
  split_ifs <;> omega

/-- Each threshold indicator is monotone in the XP total. -/
lemma levelIndicator_mono (c a b : Int) (hab : a ≤ b) :
    levelIndicator c a ≤ levelIndicator c b := by
  unfold levelIndicator
  split_ifs <;> omega

set_option maxHeartbeats 1600000 in
/-- C3: `calculate_level` is monotone non-decreasing in the XP total,
`xp_to_next_level` is always ≥ 0, and once the XP total reaches the maximum
level's threshold (7500) the progress percent is exactly 100. -/
theorem calculate_level_spec :
    (∀ a b : Int, 0 ≤ a → a ≤ b →
        (calculate_level a).level ≤ (calculate_level b).level) ∧
    (∀ xp : Int, 0 ≤ (calculate_level xp).xp_to_next_level) ∧
    (∀ xp : Int, 7500 ≤ xp → (calculate_level xp).xp_progress_percent = 100) := by
  refine ⟨?_, ?_, ?_⟩
  · intro a b _ hab
    rw [level_eq_sum, level_eq_sum]
    have m := fun c => levelIndicator_mono c a b hab
    exact Nat.add_le_add (Nat.add_le_add (Nat.add_le_add (Nat.add_le_add (Nat.add_le_add
      (Nat.add_le_add (Nat.add_le_add (Nat.add_le_add (Nat.add_le_add (le_refl 1)
      (m 250)) (m 600)) (m 1000)) (m 1500)) (m 2200)) (m 3000)) (m 4000)) (m 5500)) (m 7500)
  · intro xp
    have hw := levelWalkFull_eq xp
    split_ifs at hw <;> simp only [calculate_level, hw] <;> omega
  · intro xp hxp
    have hw := levelWalkFull_eq xp
    split_ifs at hw <;> simp only [calculate_level, hw] <;>
      first | (exfalso; omega) | norm_num

/-- Witness for `calculate_level_spec` at concrete XP totals. -/
theorem calculate_level_spec_witness :
    (calculate_level 100).level ≤ (calculate_level 700).level ∧
    0 ≤ (calculate_level 700).xp_to_next_level ∧
    (calculate_level 7500).xp_progress_percent = 100 :=
  ⟨calculate_level_spec.1 100 700 (by norm_num) (by norm_num),
   calculate_level_spec.2.1 700,
   calculate_level_spec.2.2 7500 (by norm_num)⟩

/-- C4: `calculate_xp_for_action` pays the fixed base rewards
(`sorted` = 50, `reset` = 50, `streak_day` = 25, `first_check` = 100,
`perfect_day` = 200); a reset additionally earns `min(streak_days*25, 250)`
streak bonus plus the speed bonus (+50 within 5 minutes, +25 within 30);
in particular a reset within 5 minutes earns the 50-point speed bonus on
top of the base reset reward. -/
theorem calculate_xp_for_action_spec :
    (∀ s m, calculate_xp_for_action "sorted" s m = 50) ∧
    (∀ s m, calculate_xp_for_action "streak_day" s m = 25) ∧
    (∀ s m, calculate_xp_for_action "first_check" s m = 100) ∧
    (∀ s m, calculate_xp_for_action "perfect_day" s m = 200) ∧
    (∀ s m, 0 ≤ s →
        calculate_xp_for_action "reset" s m = 50 + min (s * 25) 250 + speed_bonus m) ∧
    (∀ s k, 0 ≤ s → k ≤ 5 →
        calculate_xp_for_action "reset" s (some k) = (50 + min (s * 25) 250) + 50) := by
  refine ⟨?_, ?_, ?_, ?_, ?_, ?_⟩
  · intro s m
    cases m <;> simp [calculate_xp_for_action, XP_REWARDS_get]
  · intro s m
    cases m <;> simp [calculate_xp_for_action, XP_REWARDS_get]
  · intro s m
    cases m <;> simp [calculate_xp_for_action, XP_REWARDS_get]
  · intro s m
    cases m <;> simp [calculate_xp_for_action, XP_REWARDS_get]
  · intro s m hs
    cases m <;> simp [calculate_xp_for_action, XP_REWARDS_get, speed_bonus] <;>
      intros <;> first | omega | (split_ifs <;> intros <;> omega)
  · intro s k hs hk
    simp [calculate_xp_for_action, XP_REWARDS_get, hk]
    intros <;> first | omega | (split_ifs <;> intros <;> omega)

/-- Witness for `calculate_xp_for_action_spec` at a concrete reset. -/
theorem calculate_xp_for_action_spec_witness :
    calculate_xp_for_action "reset" 3 (some 4) = (50 + min ((3 : Int) * 25) 250) + 50 :=
  calculate_xp_for_action_spec.2.2.2.2.2 3 4 (by norm_num) (by norm_num)

/-- C5: `get_daily_challenge` returns the challenge at index
`(year*365 + day_of_year) mod N` of the fixed list of `N = 7` challenges,
and the same date always yields the identical challenge. -/
theorem get_daily_challenge_spec :
    DAILY_CHALLENGES.length = 7 ∧
    (∀ y d : Nat, DAILY_CHALLENGES.get? ((y * 365 + d) % DAILY_CHALLENGES.length) =
        some (get_daily_challenge y d)) ∧
    (∀ y1 d1 y2 d2 : Nat, y1 = y2 → d1 = d2 →
        get_daily_challenge y1 d1 = get_daily_challenge y2 d2) := by
  refine ⟨by norm_num [DAILY_CHALLENGES], ?_, ?_⟩
  · intro y d
    rw [List.get?_eq_get (Nat.mod_lt _ (by norm_num [DAILY_CHALLENGES]))]
    rfl
  · intro y1 d1 y2 d2 h1 h2
    rw [h1, h2]

/-- Witness for `get_daily_challenge_spec` at a concrete date. -/
theorem get_daily_challenge_spec_witness :
    get_daily_challenge 2025 100 = get_daily_challenge 2025 100 ∧
    DAILY_CHALLENGES.get? ((2025 * 365 + 100) % DAILY_CHALLENGES.length) =
      some (get_daily_challenge 2025 100) :=
  ⟨get_daily_challenge_spec.2.2 2025 100 2025 100 rfl rfl,
   get_daily_challenge_spec.2.1 2025 100⟩

/-- C10: `check_achievement_unlock` returns `false` for every id absent
from the achievement catalogue, and returns `false` unconditionally for the
`"perfectionist"` achievement (condition `"perfect_day"`). -/
theorem check_achievement_unlock_spec :
    (∀ aid ctx, dictGet ACHIEVEMENTS aid = none →
        check_achievement_unlock aid ctx = false) ∧
    (∀ ctx, check_achievement_unlock "perfectionist" ctx = false) := by
  constructor
  · intro aid ctx h
    simp [check_achievement_unlock, h]
  · intro ctx
    rfl

/-- Witness for `check_achievement_unlock_spec` at a concrete unknown id. -/
theorem check_achievement_unlock_spec_witness :
    check_achievement_unlock "not_an_achievement" ⟨0, 0, none, none, 0, 0, 0⟩ = false :=
  check_achievement_unlock_spec.1 "not_an_achievement" ⟨0, 0, none, none, 0, 0, 0⟩ rfl

lemma alookup_bump (l : List (String × Nat)) (j k : String) :
    alookup (bump l j) k = if k = j then some ((alookup l k).getD 0 + 1) else alookup l k := by
  induction l with
  | nil =>
      by_cases h : k = j
      · subst h; simp [bump, alookup]
      · simp [bump, alookup, h, Ne.symm h]
  | cons hd tl ih =>
      obtain ⟨k0, n⟩ := hd
      simp only [bump]
      by_cases h0 : k0 = j
      · rw [if_pos h0]
        by_cases h1 : k0 = k
        · have hkj : k = j := by rw [← h1, h0]
          simp [alookup, h1, hkj]
        · have hkj : ¬(k = j) := fun hh => h1 (by rw [h0, ← hh])
          simp [alookup, h1, hkj]
      · rw [if_neg h0]
        by_cases h1 : k0 = k
        · have hkj : ¬(k = j) := fun hh => h0 (by rw [h1, hh])
          simp [alookup, h1, hkj]
        · simp [alookup, h1, ih]

lemma mem_keys_iff_alookup (l : List (String × Nat)) (k : String) :
    k ∈ keysOf l ↔ alookup l k ≠ none := by
  induction l with
  | nil => simp [keysOf, alookup]
  | cons hd tl ih =>
      obtain ⟨k0, n⟩ := hd
      by_cases h : k0 = k
      · simp [keysOf, alookup, h]
      · simp only [keysOf, List.map_cons, List.mem_cons, alookup, if_neg h]
        constructor
        · rintro (hh | hh)
          · exact absurd hh.symm h
          · exact (ih.mp hh)
        · intro hh
          exact Or.inr (ih.mpr hh)

lemma keysOf_bump (l : List (String × Nat)) (j : String) :
    keysOf (bump l j) = if alookup l j = none then keysOf l ++ [j] else keysOf l := by
  induction l with
  | nil => simp [bump, alookup, keysOf]
  | cons hd tl ih =>
      obtain ⟨k0, n⟩ := hd
      by_cases h : k0 = j
      · simp [bump, alookup, keysOf, h]
      · simp only [bump, if_neg h, alookup, keysOf, List.map_cons]
        rw [show keysOf (bump tl j) = List.map Prod.fst (bump tl j) from rfl] at ih
        by_cases hn : alookup tl j = none
        · simp [hn, ih, keysOf]
        · simp [hn, ih, keysOf]

lemma KeysNodup_bump (l : List (String × Nat)) (j : String) (h : KeysNodup l) :
    KeysNodup (bump l j) := by
  unfold KeysNodup at h ⊢
  rw [keysOf_bump]
  split_ifs with hn
  · rw [List.nodup_append]
    refine ⟨h, List.nodup_singleton j, ?_⟩
    intro a ha hb
    rw [List.mem_singleton] at hb
    subst hb
    exact (mem_keys_iff_alookup l a).mp ha hn
  · exact h

lemma alookup_of_mem (l : List (String × Nat)) (k : String) (n : Nat)
    (h : KeysNodup l) (hm : (k, n) ∈ l) : alookup l k = some n := by
  induction l with
  | nil => simp at hm
  | cons hd tl ih =>
      obtain ⟨k0, m⟩ := hd
      rw [List.mem_cons] at hm
      rcases hm with hm | hm
      · obtain ⟨h1, h2⟩ := Prod.mk.injEq .. ▸ hm
        simp [alookup, h1.symm, h2]
      · have hk0 : ¬(k0 = k) := by
          intro hh
          subst hh
          have : k0 ∈ keysOf tl := List.mem_map.mpr ⟨(k0, n), hm, rfl⟩
          have hnd := h
          unfold KeysNodup keysOf at hnd
          rw [List.map_cons, List.nodup_cons] at hnd
          exact hnd.1 this
        have htl : KeysNodup tl := by
          unfold KeysNodup keysOf at h ⊢
          rw [List.map_cons, List.nodup_cons] at h
          exact h.2
        simp [alookup, hk0, ih htl hm]

lemma mem_of_alookup (l : List (String × Nat)) (k : String) (n : Nat)
    (h : alookup l k = some n) : (k, n) ∈ l := by
  induction l with
  | nil => simp [alookup] at h
  | cons hd tl ih =>
      obtain ⟨k0, m⟩ := hd
      by_cases h0 : k0 = k
      · rw [alookup, if_pos h0] at h
        subst h0
        simp [Option.some.injEq] at h
        simp [h]
      · rw [alookup, if_neg h0] at h
        exact List.mem_cons_of_mem _ (ih h)

lemma bumpAll_getD (items : List String) (acc : List (String × Nat)) (k : String)
    (hk : ¬(k = "")) :
    (alookup (bumpAll acc items) k).getD 0 = (alookup acc k).getD 0 + itemsOccL items k := by
  induction items generalizing acc with
  | nil => simp [bumpAll, itemsOccL]
  | cons it rest ih =>
      simp only [bumpAll]
      by_cases hnm : pyLowerStrip it = ""
      · rw [if_neg (by simp [hnm])]
        rw [ih acc]
        have hne : (pyLowerStrip it == k) = false := by
          rw [beq_eq_false_iff_ne]
          intro hh
          exact hk (by rw [← hh, hnm])
        simp [itemsOccL, List.countP_cons, hne]
      · rw [if_pos (by simpa using hnm)]
        rw [ih (bump acc (pyLowerStrip it))]
        by_cases hkn : pyLowerStrip it = k
        · have hb : (pyLowerStrip it == k) = true := by rw [beq_iff_eq]; exact hkn
          rw [alookup_bump]
          rw [if_pos hkn.symm]
          simp [itemsOccL, List.countP_cons, hb]
          omega
        · have hb : (pyLowerStrip it == k) = false := by
            rw [beq_eq_false_iff_ne]; exact hkn
          rw [alookup_bump]
          rw [if_neg (fun hh => hkn hh.symm)]
          simp [itemsOccL, List.countP_cons, hb]

lemma bumpAll_none (items : List String) (acc : List (String × Nat)) (k : String) :
    alookup (bumpAll acc items) k = none ↔
      alookup acc k = none ∧ (k = "" ∨ itemsOccL items k = 0) := by
  induction items generalizing acc with
  | nil => simp [bumpAll, itemsOccL]
  | cons it rest ih =>
      simp only [bumpAll]
      by_cases hnm : pyLowerStrip it = ""
      · rw [if_neg (by simp [hnm])]
        rw [ih acc]
        by_cases hke : k = ""
        · simp [hke, itemsOccL]
        · have hne : (pyLowerStrip it == k) = false := by
            rw [beq_eq_false_iff_ne]
            intro hh
            exact hke (by rw [← hh, hnm])
          simp [itemsOccL, List.countP_cons, hne, hke]
      · rw [if_pos (by simpa using hnm)]
        rw [ih (bump acc (pyLowerStrip it))]
        by_cases hkn : pyLowerStrip it = k
        · have hb : (pyLowerStrip it == k) = true := by rw [beq_iff_eq]; exact hkn
          have : alookup (bump acc (pyLowerStrip it)) k = some ((alookup acc k).getD 0 + 1) := by
            rw [alookup_bump, if_pos hkn.symm]
          rw [this]
          have hke : ¬(k = "") := by rw [← hkn]; exact hnm
          simp [itemsOccL, List.countP_cons, hb, hke]
        · have hb : (pyLowerStrip it == k) = false := by
            rw [beq_eq_false_iff_ne]; exact hkn
          have : alookup (bump acc (pyLowerStrip it)) k = alookup acc k := by
            rw [alookup_bump, if_neg (fun hh => hkn hh.symm)]
          rw [this]
          simp [itemsOccL, List.countP_cons, hb]

lemma KeysNodup_bumpAll (items : List String) (acc : List (String × Nat))
    (h : KeysNodup acc) : KeysNodup (bumpAll acc items) := by
  induction items generalizing acc with
  | nil => exact h
  | cons it rest ih =>
      simp only [bumpAll]
      split_ifs with hg
      · exact ih _ (KeysNodup_bump _ _ h)
      · exact ih _ h

lemma countItemsFrom_getD (checks : List CheckRec) (acc : List (String × Nat)) (k : String)
    (hk : ¬(k = "")) :
    (alookup (countItemsFrom acc checks) k).getD 0 = (alookup acc k).getD 0 + occCount checks k := by
  induction checks generalizing acc with
  | nil => simp [countItemsFrom, occCount]
  | cons c rest ih =>
      simp only [countItemsFrom]
      rw [ih (bumpAll acc c.to_sort)]
      rw [bumpAll_getD _ _ _ hk]
      simp [occCount]
      omega

lemma countItemsFrom_none (checks : List CheckRec) (acc : List (String × Nat)) (k : String) :
    alookup (countItemsFrom acc checks) k = none ↔
      alookup acc k = none ∧ (k = "" ∨ occCount checks k = 0) := by
  induction checks generalizing acc with
  | nil => simp [countItemsFrom, occCount]
  | cons c rest ih =>
      simp only [countItemsFrom]
      rw [ih (bumpAll acc c.to_sort)]
      rw [bumpAll_none]
      by_cases hke : k = ""
      · simp [hke]
      · simp only [hke, false_or]
        constructor
        · rintro ⟨⟨h1, h2⟩, h3⟩
          refine ⟨h1, ?_⟩
          simp only [occCount, List.map_cons, List.sum_cons] at h3 ⊢
          omega
        · rintro ⟨h1, h2⟩
          simp only [occCount, List.map_cons, List.sum_cons, Nat.add_eq_zero] at h2
          refine ⟨⟨h1, h2.1⟩, ?_⟩
          simp only [occCount]
          exact h2.2

lemma KeysNodup_countItemsFrom (checks : List CheckRec) (acc : List (String × Nat))
    (h : KeysNodup acc) : KeysNodup (countItemsFrom acc checks) := by
  induction checks generalizing acc with
  | nil => exact h
  | cons c rest ih => exact ih _ (KeysNodup_bumpAll _ _ h)

theorem count_recurring_items_amended (checks : List CheckRec) (name : String) :
    name ∈ keysOf (count_recurring_items checks) ↔
      ¬(name = "") ∧ RECURRING_THRESHOLD ≤ occCount checks name := by
  have hnodup : KeysNodup (countItemsFrom [] checks) :=
    KeysNodup_countItemsFrom _ _ (by simp [KeysNodup, keysOf])
  constructor
  · intro h
    obtain ⟨⟨nm, n⟩, hmem, hfst⟩ := List.mem_map.mp h
    obtain ⟨hbase, hp⟩ := List.mem_filter.mp hmem
    simp only at hfst
    have halo : alookup (countItemsFrom [] checks) name = some n := by
      rw [← hfst]
      exact alookup_of_mem _ _ _ hnodup hbase
    have hnn : alookup (countItemsFrom [] checks) name ≠ none := by simp [halo]
    have hne : ¬(name = "") := by
      intro hh
      apply hnn
      rw [countItemsFrom_none]
      exact ⟨by simp [alookup], Or.inl hh⟩
    have hgd : (alookup (countItemsFrom [] checks) name).getD 0 = occCount checks name := by
      rw [countItemsFrom_getD _ _ _ hne]
      simp [alookup]
    rw [halo] at hgd
    simp only [Option.getD_some] at hgd
    refine ⟨hne, ?_⟩
    rw [← hgd]
    simpa using hp
  · rintro ⟨hne, hocc⟩
    have hnn : alookup (countItemsFrom [] checks) name ≠ none := by
      intro hcontra
      rw [countItemsFrom_none] at hcontra
      rcases hcontra with ⟨h1, h2 | h3⟩
      · exact hne h2
      · rw [h3] at hocc
        exact absurd hocc (by simp [RECURRING_THRESHOLD])
    obtain ⟨n, hn⟩ := Option.ne_none_iff_exists.mp hnn
    have halo : alookup (countItemsFrom [] checks) name = some n := hn.symm
    have hgd : (alookup (countItemsFrom [] checks) name).getD 0 = occCount checks name := by
      rw [countItemsFrom_getD _ _ _ hne]
      simp [alookup]
    rw [halo] at hgd
    simp only [Option.getD_some] at hgd
    have hmem : (name, n) ∈ countItemsFrom [] checks := mem_of_alookup _ _ _ halo
    refine List.mem_map.mpr ⟨(name, n), List.mem_filter.mpr ⟨hmem, ?_⟩, rfl⟩
    simpa [hgd] using hocc

lemma alookup_dayCountsFrom (st : String) (checks : List CheckRec)
    (acc : List (String × Nat)) (k : String) :
    alookup (dayCountsFrom st acc checks) k =
      if 0 < dayStatusCount checks st k
      then some ((alookup acc k).getD 0 + dayStatusCount checks st k)
      else alookup acc k := by
  induction checks generalizing acc with
  | nil => simp [dayCountsFrom, dayStatusCount]
  | cons c rest ih =>
      simp only [dayCountsFrom]
      by_cases hst : c.status = st
      · rw [if_pos hst]
        rw [ih (bump acc c.weekday)]
        by_cases hwd : c.weekday = k
        · have hcnt : dayStatusCount (c :: rest) st k = dayStatusCount rest st k + 1 := by
            simp [dayStatusCount, List.countP_cons, hst, hwd]
          have hbk : alookup (bump acc c.weekday) k = some ((alookup acc k).getD 0 + 1) := by
            rw [alookup_bump, if_pos hwd.symm]
          rw [hcnt, hbk]
          by_cases hpos : 0 < dayStatusCount rest st k
          · rw [if_pos hpos, if_pos (by omega)]
            simp
            omega
          · rw [if_neg hpos, if_pos (by omega)]
            simp
            omega
        · have hcnt : dayStatusCount (c :: rest) st k = dayStatusCount rest st k := by
            have : (c.status == st && c.weekday == k) = false := by
              rw [Bool.and_eq_false_iff]
              right
              rw [beq_eq_false_iff_ne]
              exact hwd
            simp [dayStatusCount, List.countP_cons, this]
          have hbk : alookup (bump acc c.weekday) k = alookup acc k := by
            rw [alookup_bump, if_neg (fun hh => hwd hh.symm)]
          rw [hcnt, hbk]
      · rw [if_neg hst]
        rw [ih acc]
        have hcnt : dayStatusCount (c :: rest) st k = dayStatusCount rest st k := by
          have : (c.status == st && c.weekday == k) = false := by
            rw [Bool.and_eq_false_iff]
            left
            rw [beq_eq_false_iff_ne]
            exact hst
          simp [dayStatusCount, List.countP_cons, this]
        rw [hcnt]

lemma KeysNodup_dayCountsFrom (st : String) (checks : List CheckRec)
    (acc : List (String × Nat)) (h : KeysNodup acc) :
    KeysNodup (dayCountsFrom st acc checks) := by
  induction checks generalizing acc with
  | nil => exact h
  | cons c rest ih =>
      simp only [dayCountsFrom]
      split_ifs with hst
      · exact ih _ (KeysNodup_bump _ _ h)
      · exact ih _ h

lemma bump_ne_nil (l : List (String × Nat)) (j : String) : bump l j ≠ [] := by
  cases l with
  | nil => simp [bump]
  | cons hd tl =>
      obtain ⟨k0, n⟩ := hd
      simp only [bump]
      split_ifs <;> simp

lemma dayCountsFrom_eq_nil (st : String) (checks : List CheckRec)
    (acc : List (String × Nat)) :
    dayCountsFrom st acc checks = [] ↔ acc = [] ∧ ∀ c ∈ checks, ¬(c.status = st) := by
  induction checks generalizing acc with
  | nil => simp [dayCountsFrom]
  | cons c rest ih =>
      simp only [dayCountsFrom]
      by_cases hst : c.status = st
      · rw [if_pos hst]
        rw [ih (bump acc c.weekday)]
        simp only [List.mem_cons]
        constructor
        · rintro ⟨hnil, _⟩
          exact absurd hnil (bump_ne_nil _ _)
        · rintro ⟨_, hall⟩
          exact absurd hst (hall c (Or.inl rfl))
      · rw [if_neg hst]
        rw [ih acc]
        simp only [List.mem_cons]
        constructor
        · rintro ⟨hnil, hall⟩
          refine ⟨hnil, ?_⟩
          rintro d (rfl | hd)
          · exact hst
          · exact hall d hd
        · rintro ⟨hnil, hall⟩
          exact ⟨hnil, fun d hd => hall d (Or.inr hd)⟩

lemma mc1Go_mem (best : String × Nat) (l : List (String × Nat)) :
    mc1Go best l ∈ best :: l := by
  induction l generalizing best with
  | nil => simp [mc1Go]
  | cons p rest ih =>
      simp only [mc1Go]
      split_ifs with h
      · have := ih p
        simp only [List.mem_cons] at this ⊢
        tauto
      · have := ih best
        simp only [List.mem_cons] at this ⊢
        tauto

lemma mc1Go_ge_best (best : String × Nat) (l : List (String × Nat)) :
    best.2 ≤ (mc1Go best l).2 := by
  induction l generalizing best with
  | nil => simp [mc1Go]
  | cons q rest ih =>
      simp only [mc1Go]
      split_ifs with h
      · exact le_trans (le_of_lt h) (ih q)
      · exact ih best

lemma mc1Go_ge_mem (best : String × Nat) (l : List (String × Nat)) :
    ∀ p ∈ l, p.2 ≤ (mc1Go best l).2 := by
  induction l generalizing best with
  | nil =>
      intro p hp
      simp at hp
  | cons q rest ih =>
      intro p hp
      rw [List.mem_cons] at hp
      simp only [mc1Go]
      split_ifs with h
      · rcases hp with hq | hp
        · rw [hq]
          exact mc1Go_ge_best q rest
        · exact ih q p hp
      · rcases hp with hq | hp
        · rw [hq]
          exact le_trans (le_of_not_lt h) (mc1Go_ge_best best rest)
        · exact ih best p hp

lemma mostCommonDay_none (st : String) (checks : List CheckRec) :
    (mostCommon1 (dayCountsFrom st [] checks)).map Prod.fst = none ↔
      ∀ c ∈ checks, ¬(c.status = st) := by
  constructor
  · intro h
    cases hc : dayCountsFrom st [] checks with
    | nil => exact ((dayCountsFrom_eq_nil st checks []).mp hc).2
    | cons p rest =>
        rw [hc] at h
        simp [mostCommon1] at h
  · intro hall
    have hnil : dayCountsFrom st [] checks = [] :=
      (dayCountsFrom_eq_nil st checks []).mpr ⟨rfl, hall⟩
    rw [hnil]
    rfl

lemma mostCommonDay_some (st : String) (checks : List CheckRec) (d : String)
    (h : (mostCommon1 (dayCountsFrom st [] checks)).map Prod.fst = some d) :
    0 < dayStatusCount checks st d ∧
      ∀ e, dayStatusCount checks st e ≤ dayStatusCount checks st d := by
  have hnodup : KeysNodup (dayCountsFrom st [] checks) :=
    KeysNodup_dayCountsFrom _ _ _ (by simp [KeysNodup, keysOf])
  cases hc : dayCountsFrom st [] checks with
  | nil =>
      rw [hc] at h
      simp [mostCommon1] at h
  | cons p rest =>
      rw [hc] at h
      simp only [mostCommon1, Option.map_some'] at h
      rw [Option.some.injEq] at h
      set q := mc1Go p rest with hq
      have hqmem : q ∈ dayCountsFrom st [] checks := by
        rw [hc]
        exact mc1Go_mem p rest
      have halo : alookup (dayCountsFrom st [] checks) q.1 = some q.2 :=
        alookup_of_mem _ _ _ hnodup (by simpa using hqmem)
      rw [alookup_dayCountsFrom] at halo
      by_cases hpos : 0 < dayStatusCount checks st q.1
      · rw [if_pos hpos] at halo
        simp only [alookup, Option.some.injEq] at halo
        have hq2 : q.2 = dayStatusCount checks st q.1 := by
          simpa using halo.symm
        constructor
        · rw [← h]
          exact hpos
        · intro e
          by_cases hpe : 0 < dayStatusCount checks st e
          · have haloe : alookup (dayCountsFrom st [] checks) e =
                some ((alookup ([] : List (String × Nat)) e).getD 0 + dayStatusCount checks st e) := by
              rw [alookup_dayCountsFrom, if_pos hpe]
            have hmeme : (e, (alookup ([] : List (String × Nat)) e).getD 0 + dayStatusCount checks st e) ∈
                dayCountsFrom st [] checks := mem_of_alookup _ _ _ haloe
            rw [hc, List.mem_cons] at hmeme
            have hle : (alookup ([] : List (String × Nat)) e).getD 0 + dayStatusCount checks st e ≤ q.2 := by
              rcases hmeme with hep | hem
              · have : ((e, (alookup ([] : List (String × Nat)) e).getD 0 + dayStatusCount checks st e) : String × Nat).2 ≤ q.2 := by
                  rw [hep]
                  exact mc1Go_ge_best p rest
                simpa using this
              · have : ((e, (alookup ([] : List (String × Nat)) e).getD 0 + dayStatusCount checks st e) : String × Nat).2 ≤ q.2 :=
                  mc1Go_ge_mem p rest _ hem
                simpa using this
            rw [hq2] at hle
            simp only [alookup, Option.getD_none] at hle
            rw [← h]
            omega
          · rw [← h]
            omega
      · rw [if_neg hpos] at halo
        simp [alookup] at halo

theorem find_day_amended (checks : List CheckRec) :
    ((find_best_day checks = none) ↔ ∀ c ∈ checks, ¬(c.status = "sorted")) ∧
    (∀ d, find_best_day checks = some d →
        0 < dayStatusCount checks "sorted" d ∧
        ∀ e, dayStatusCount checks "sorted" e ≤ dayStatusCount checks "sorted" d) ∧
    ((find_worst_day checks = none) ↔ ∀ c ∈ checks, ¬(c.status = "needs_attention")) ∧
    (∀ d, find_worst_day checks = some d →
        0 < dayStatusCount checks "needs_attention" d ∧
        ∀ e, dayStatusCount checks "needs_attention" e ≤
          dayStatusCount checks "needs_attention" d) :=
  ⟨mostCommonDay_none "sorted" checks,
   fun d h => mostCommonDay_some "sorted" checks d h,
   mostCommonDay_none "needs_attention" checks,
   fun d h => mostCommonDay_some "needs_attention" checks d h⟩

/-- C1 counterexample: in a history with a single check whose to-sort list
names "mug" three times, "mug" is in the recurring-items mapping although it
appeared in only one distinct check — occurrences are counted, not distinct
checks. -/
theorem count_recurring_items_counterexample :
    ¬("mug" ∈ keysOf (count_recurring_items cexChecksC1) ↔
        3 ≤ distinctCheckCount cexChecksC1 "mug") := by decide

/-- C2 counterexample: with 4 sorted + 6 needs-attention Monday checks and
3 sorted Tuesday checks, the qualifying-ratio rule of the claim picks
Tuesday (100% over 40%), but `_find_best_day` returns Monday, the weekday
with the most sorted checks. -/
theorem find_day_counterexample :
    specBestDay cexChecksC2 = some "Tuesday" ∧
    find_best_day cexChecksC2 = some "Monday" ∧
    ¬(find_best_day cexChecksC2 = specBestDay cexChecksC2) := by decide

/-- Witness for `find_day_amended` on the concrete history `cexChecksC2`. -/
theorem find_day_amended_witness :
    0 < dayStatusCount cexChecksC2 "sorted" "Monday" ∧
    dayStatusCount cexChecksC2 "sorted" "Tuesday" ≤
      dayStatusCount cexChecksC2 "sorted" "Monday" :=
  ⟨((find_day_amended cexChecksC2).2.1 "Monday" (by decide)).1,
   ((find_day_amended cexChecksC2).2.1 "Monday" (by decide)).2 "Tuesday"⟩

lemma pyStartsWith_head (s p : String) (c : Char) (h : pyStartsWith s p = true)
    (hc : p.data.head? = some c) : s.data.head? = some c := by
  unfold pyStartsWith at h
  rw [List.isPrefixOf_iff_prefix] at h
  obtain ⟨t, ht⟩ := h
  cases hp : p.data with
  | nil => rw [hp] at hc; simp at hc
  | cons a as =>
      rw [hp] at hc ht
      simp only [List.head?] at hc
      rw [← ht]
      simpa using hc

lemma startsWith_disjoint (s p1 p2 : String) (c1 c2 : Char)
    (h1 : p1.data.head? = some c1) (h2 : p2.data.head? = some c2) (hne : ¬(c1 = c2))
    (hs1 : pyStartsWith s p1 = true) (hs2 : pyStartsWith s p2 = true) : False := by
  have e1 := pyStartsWith_head s p1 c1 hs1 h1
  have e2 := pyStartsWith_head s p2 c2 hs2 h2
  rw [e1] at e2
  simp at e2
  exact hne e2

theorem get_adapter_for_camera_spec :
    ∀ cid : String,
      (pyStartsWith cid "camera." = true → get_adapter_for_camera cid = Adapter.ha) ∧
      (pyStartsWith cid "rtsp_" = true → get_adapter_for_camera cid = Adapter.rtsp) ∧
      (pyStartsWith cid "mjpeg_" = true → get_adapter_for_camera cid = Adapter.mjpeg) ∧
      (pyStartsWith cid "onvif_" = true → get_adapter_for_camera cid = Adapter.onvif) ∧
      (pyStartsWith cid "camera." = false → pyStartsWith cid "rtsp_" = false →
        pyStartsWith cid "mjpeg_" = false → pyStartsWith cid "onvif_" = false →
        get_adapter_for_camera cid = Adapter.ha) := by
  intro cid
  refine ⟨?_, ?_, ?_, ?_, ?_⟩
  · intro h
    simp [get_adapter_for_camera, adapterPrefixes, List.find?, h]
  · intro h
    have hcam : pyStartsWith cid "camera." = false := by
      by_contra hc
      rw [Bool.not_eq_false] at hc
      exact startsWith_disjoint cid "camera." "rtsp_" 'c' 'r' rfl rfl (by decide) hc h
    simp [get_adapter_for_camera, adapterPrefixes, List.find?, h, hcam]
  · intro h
    have hcam : pyStartsWith cid "camera." = false := by
      by_contra hc
      rw [Bool.not_eq_false] at hc
      exact startsWith_disjoint cid "camera." "mjpeg_" 'c' 'm' rfl rfl (by decide) hc h
    have hrt : pyStartsWith cid "rtsp_" = false := by
      by_contra hc
      rw [Bool.not_eq_false] at hc
      exact startsWith_disjoint cid "rtsp_" "mjpeg_" 'r' 'm' rfl rfl (by decide) hc h
    simp [get_adapter_for_camera, adapterPrefixes, List.find?, h, hcam, hrt]
  · intro h
    have hcam : pyStartsWith cid "camera." = false := by
      by_contra hc
      rw [Bool.not_eq_false] at hc
      exact startsWith_disjoint cid "camera." "onvif_" 'c' 'o' rfl rfl (by decide) hc h
    have hrt : pyStartsWith cid "rtsp_" = false := by
      by_contra hc
      rw [Bool.not_eq_false] at hc
      exact startsWith_disjoint cid "rtsp_" "onvif_" 'r' 'o' rfl rfl (by decide) hc h
    have hmj : pyStartsWith cid "mjpeg_" = false := by
      by_contra hc
      rw [Bool.not_eq_false] at hc
      exact startsWith_disjoint cid "mjpeg_" "onvif_" 'm' 'o' rfl rfl (by decide) hc h
    simp [get_adapter_for_camera, adapterPrefixes, List.find?, h, hcam, hrt, hmj]
  · intro h1 h2 h3 h4
    simp [get_adapter_for_camera, adapterPrefixes, List.find?, h1, h2, h3, h4]

theorem get_adapter_for_camera_spec_witness :
    pyStartsWith "rtsp_front_door" "rtsp_" = true ∧
    get_adapter_for_camera "rtsp_front_door" = Adapter.rtsp ∧
    get_adapter_for_camera "front_door" = Adapter.ha :=
  ⟨by decide,
   (get_adapter_for_camera_spec "rtsp_front_door").2.1 (by decide),
   (get_adapter_for_camera_spec "front_door").2.2.2.2 (by decide) (by decide)
     (by decide) (by decide)⟩

theorem ha_snapshot_retry_spec (token : Option String) (outcomes : Nat → SnapOutcome)
    (htok : ¬(token = none ∨ token = some "")) :
    (1 ≤ (get_snapshot_with_error token outcomes).attempts ∧
      (get_snapshot_with_error token outcomes).attempts ≤ MAX_RETRIES) ∧
    ((get_snapshot_with_error token outcomes).sleeps =
      (List.range ((get_snapshot_with_error token outcomes).attempts - 1)).map
        (fun i => BASE_BACKOFF_SECONDS * 2 ^ i)) ∧
    (∀ k d, (∀ j, j < k → nonFatalOutcome (outcomes j)) → outcomes k = SnapOutcome.ok d →
        k < MAX_RETRIES →
        get_snapshot_with_error token outcomes =
          ⟨some d, none, k + 1, (List.range k).map (fun i => BASE_BACKOFF_SECONDS * 2 ^ i)⟩) ∧
    (∀ k e, (∀ j, j < k → nonFatalOutcome (outcomes j)) → outcomes k = SnapOutcome.fail e →
        (e.error_type = "auth" ∨ e.error_type = "not_found") → k < MAX_RETRIES →
        get_snapshot_with_error token outcomes =
          ⟨none, some e, k + 1, (List.range k).map (fun i => BASE_BACKOFF_SECONDS * 2 ^ i)⟩) ∧
    ((∀ j, j < MAX_RETRIES → nonFatalOutcome (outcomes j)) →
        get_snapshot_with_error token outcomes =
          ⟨none, errOf (outcomes 2), MAX_RETRIES,
            (List.range (MAX_RETRIES - 1)).map (fun i => BASE_BACKOFF_SECONDS * 2 ^ i)⟩) := by
  have hrun : get_snapshot_with_error token outcomes = snapLoop outcomes 0 3 none [] := by
    rw [get_snapshot_with_error, if_neg htok, MAX_RETRIES]
  rcases h0 : outcomes 0 with d0 | e0
  ·
    have hv : get_snapshot_with_error token outcomes = ⟨some d0, none, 1, []⟩ := by
      rw [hrun]; simp [snapLoop, h0]
    refine ⟨by rw [hv]; exact ⟨le_refl 1, by norm_num [MAX_RETRIES]⟩, by rw [hv]; rfl, ?_, ?_, ?_⟩
    · intro k d hall hk hk3
      match k with
      | 0 => rw [h0] at hk; injection hk with hd; rw [hv, hd]; rfl
      | Nat.succ k =>
          obtain ⟨e, he, _⟩ := hall 0 (Nat.succ_pos k)
          rw [h0] at he; exact absurd he (by simp)
    · intro k e hall hk hf hk3
      match k with
      | 0 => rw [h0] at hk; exact absurd hk (by simp)
      | Nat.succ k =>
          obtain ⟨e2, he, _⟩ := hall 0 (Nat.succ_pos k)
          rw [h0] at he; exact absurd he (by simp)
    · intro hall
      obtain ⟨e, he, _⟩ := hall 0 (by norm_num [MAX_RETRIES])
      rw [h0] at he; exact absurd he (by simp)
  ·
    by_cases f0 : e0.error_type = "auth" ∨ e0.error_type = "not_found"
    · have hv : get_snapshot_with_error token outcomes = ⟨none, some e0, 1, []⟩ := by
        rw [hrun]; simp [snapLoop, h0, f0]
      refine ⟨by rw [hv]; exact ⟨le_refl 1, by norm_num [MAX_RETRIES]⟩, by rw [hv]; rfl, ?_, ?_, ?_⟩
      · intro k d hall hk hk3
        match k with
        | 0 => rw [h0] at hk; exact absurd hk (by simp)
        | Nat.succ k =>
            obtain ⟨e, he, hne⟩ := hall 0 (Nat.succ_pos k)
            rw [h0] at he; injection he with he2; rw [← he2] at hne; exact absurd f0 hne
      · intro k e hall hk hf hk3
        match k with
        | 0 => rw [h0] at hk; injection hk with he; rw [hv, he]; rfl
        | Nat.succ k =>
            obtain ⟨e2, he, hne⟩ := hall 0 (Nat.succ_pos k)
            rw [h0] at he; injection he with he2; rw [← he2] at hne; exact absurd f0 hne
      · intro hall
        obtain ⟨e, he, hne⟩ := hall 0 (by norm_num [MAX_RETRIES])
        rw [h0] at he; injection he with he2; rw [← he2] at hne; exact absurd f0 hne
    · -- attempt 0 failed non-fatally: sleeps 1s, retries
      rcases h1 : outcomes 1 with d1 | e1
      ·
        have hv : get_snapshot_with_error token outcomes = ⟨some d1, none, 2, [1]⟩ := by
          rw [hrun]; simp [snapLoop, h0, f0, h1, BASE_BACKOFF_SECONDS]
        refine ⟨by rw [hv]; exact ⟨by norm_num, by norm_num [MAX_RETRIES]⟩, by rw [hv]; rfl, ?_, ?_, ?_⟩
        · intro k d hall hk hk3
          match k with
          | 0 => rw [h0] at hk; exact absurd hk (by simp)
          | 1 => rw [h1] at hk; injection hk with hd; rw [hv, hd]; rfl
          | Nat.succ (Nat.succ k) =>
              obtain ⟨e, he, _⟩ := hall 1 (by omega)
              rw [h1] at he; exact absurd he (by simp)
        · intro k e hall hk hf hk3
          match k with
          | 0 => rw [h0] at hk; injection hk with he; rw [he] at f0; exact absurd hf f0
          | 1 => rw [h1] at hk; exact absurd hk (by simp)
          | Nat.succ (Nat.succ k) =>
              obtain ⟨e2, he, _⟩ := hall 1 (by omega)
              rw [h1] at he; exact absurd he (by simp)
        · intro hall
          obtain ⟨e, he, _⟩ := hall 1 (by norm_num [MAX_RETRIES])
          rw [h1] at he; exact absurd he (by simp)
      ·
        by_cases f1 : e1.error_type = "auth" ∨ e1.error_type = "not_found"
        · have hv : get_snapshot_with_error token outcomes = ⟨none, some e1, 2, [1]⟩ := by
            rw [hrun]; simp [snapLoop, h0, f0, h1, f1, BASE_BACKOFF_SECONDS]
          refine ⟨by rw [hv]; exact ⟨by norm_num, by norm_num [MAX_RETRIES]⟩, by rw [hv]; rfl, ?_, ?_, ?_⟩
          · intro k d hall hk hk3
            match k with
            | 0 => rw [h0] at hk; exact absurd hk (by simp)
            | 1 => rw [h1] at hk; exact absurd hk (by simp)
            | Nat.succ (Nat.succ k) =>
                obtain ⟨e, he, hne⟩ := hall 1 (by omega)
                rw [h1] at he; injection he with he2; rw [← he2] at hne; exact absurd f1 hne
          · intro k e hall hk hf hk3
            match k with
            | 0 => rw [h0] at hk; injection hk with he; rw [he] at f0; exact absurd hf f0
            | 1 => rw [h1] at hk; injection hk with he; rw [hv, he]; rfl
            | Nat.succ (Nat.succ k) =>
                obtain ⟨e2, he, hne⟩ := hall 1 (by omega)
                rw [h1] at he; injection he with he2; rw [← he2] at hne; exact absurd f1 hne
          · intro hall
            obtain ⟨e, he, hne⟩ := hall 1 (by norm_num [MAX_RETRIES])
            rw [h1] at he; injection he with he2; rw [← he2] at hne; exact absurd f1 hne
        · -- attempts 0 and 1 failed non-fatally: final attempt
          rcases h2 : outcomes 2 with d2 | e2
          ·
            have hv : get_snapshot_with_error token outcomes = ⟨some d2, none, 3, [1, 2]⟩ := by
              rw [hrun]; simp [snapLoop, h0, f0, h1, f1, h2, BASE_BACKOFF_SECONDS]
            refine ⟨by rw [hv]; exact ⟨by norm_num, by norm_num [MAX_RETRIES]⟩,
              by rw [hv]; rfl, ?_, ?_, ?_⟩
            · intro k d hall hk hk3
              match k with
              | 0 => rw [h0] at hk; exact absurd hk (by simp)
              | 1 => rw [h1] at hk; exact absurd hk (by simp)
              | 2 => rw [h2] at hk; injection hk with hd; rw [hv, hd]; rfl
              | Nat.succ (Nat.succ (Nat.succ k)) => exact absurd hk3 (by norm_num [MAX_RETRIES])
            · intro k e hall hk hf hk3
              match k with
              | 0 => rw [h0] at hk; injection hk with he; rw [he] at f0; exact absurd hf f0
              | 1 => rw [h1] at hk; injection hk with he; rw [he] at f1; exact absurd hf f1
              | 2 => rw [h2] at hk; exact absurd hk (by simp)
              | Nat.succ (Nat.succ (Nat.succ k)) => exact absurd hk3 (by norm_num [MAX_RETRIES])
            · intro hall
              obtain ⟨e, he, _⟩ := hall 2 (by norm_num [MAX_RETRIES])
              rw [h2] at he; exact absurd he (by simp)
          ·
            by_cases f2 : e2.error_type = "auth" ∨ e2.error_type = "not_found"
            · have hv : get_snapshot_with_error token outcomes = ⟨none, some e2, 3, [1, 2]⟩ := by
                rw [hrun]; simp [snapLoop, h0, f0, h1, f1, h2, f2, BASE_BACKOFF_SECONDS]
              refine ⟨by rw [hv]; exact ⟨by norm_num, by norm_num [MAX_RETRIES]⟩,
                by rw [hv]; rfl, ?_, ?_, ?_⟩
              · intro k d hall hk hk3
                match k with
                | 0 => rw [h0] at hk; exact absurd hk (by simp)
                | 1 => rw [h1] at hk; exact absurd hk (by simp)
                | 2 => rw [h2] at hk; exact absurd hk (by simp)
                | Nat.succ (Nat.succ (Nat.succ k)) => exact absurd hk3 (by norm_num [MAX_RETRIES])
              · intro k e hall hk hf hk3
                match k with
                | 0 => rw [h0] at hk; injection hk with he; rw [he] at f0; exact absurd hf f0
                | 1 => rw [h1] at hk; injection hk with he; rw [he] at f1; exact absurd hf f1
                | 2 => rw [h2] at hk; injection hk with he; rw [hv, he]; rfl
                | Nat.succ (Nat.succ (Nat.succ k)) => exact absurd hk3 (by norm_num [MAX_RETRIES])
              · intro hall
                obtain ⟨e, he, hne⟩ := hall 2 (by norm_num [MAX_RETRIES])
                rw [h2] at he
                have he2 : e2 = e := by injection he
                subst he2
                exact absurd f2 hne
            · have hv : get_snapshot_with_error token outcomes = ⟨none, some e2, 3, [1, 2]⟩ := by
                rw [hrun]; simp [snapLoop, h0, f0, h1, f1, h2, f2, BASE_BACKOFF_SECONDS]
              refine ⟨by rw [hv]; exact ⟨by norm_num, by norm_num [MAX_RETRIES]⟩,
                by rw [hv]; rfl, ?_, ?_, ?_⟩
              · intro k d hall hk hk3
                match k with
                | 0 => rw [h0] at hk; exact absurd hk (by simp)
                | 1 => rw [h1] at hk; exact absurd hk (by simp)
                | 2 => rw [h2] at hk; exact absurd hk (by simp)
                | Nat.succ (Nat.succ (Nat.succ k)) => exact absurd hk3 (by norm_num [MAX_RETRIES])
              · intro k e hall hk hf hk3
                match k with
                | 0 => rw [h0] at hk; injection hk with he; rw [he] at f0; exact absurd hf f0
                | 1 => rw [h1] at hk; injection hk with he; rw [he] at f1; exact absurd hf f1
                | 2 => rw [h2] at hk; injection hk with he; rw [he] at f2; exact absurd hf f2
                | Nat.succ (Nat.succ (Nat.succ k)) => exact absurd hk3 (by norm_num [MAX_RETRIES])
              · intro hall
                rw [hv]
                rfl

theorem ha_snapshot_retry_spec_witness :
    get_snapshot_with_error (some "tok") cexOutcomesC7 =
      ⟨some [42], none, 2, [1]⟩ := by
  have h := (ha_snapshot_retry_spec (some "tok") cexOutcomesC7 (by simp)).2.2.1 1 [42]
    (by
      intro j hj
      have hj0 : j = 0 := by omega
      subst hj0
      exact ⟨⟨"network", "connection refused"⟩, rfl, by decide⟩)
    rfl (by norm_num [MAX_RETRIES])
  rw [h]
  rfl

theorem analyze_error_spec (env : AnalyzeEnv) :
    ((env.api_key = none ∨ env.api_key = some "") →
        (analyze env).status = "error" ∧ ¬((analyze env).error_message = none)) ∧
    (¬(env.api_key = none ∨ env.api_key = some "") →
      (∀ body, env.http = HttpOutcome.resp 429 body →
        (analyze env).status = "error" ∧
          (analyze env).api_response_time = some env.elapsed) ∧
      (∀ s body, env.http = HttpOutcome.resp s body → ¬(s = 200) →
        (analyze env).status = "error" ∧
          (analyze env).api_response_time = some env.elapsed) ∧
      (∀ m, env.http = HttpOutcome.clientError m →
        (analyze env).status = "error" ∧
          (analyze env).api_response_time = some env.excElapsed) ∧
      (∀ m, env.http = HttpOutcome.otherExc m →
        (analyze env).status = "error" ∧
          (analyze env).api_response_time = some env.excElapsed)) := by
  constructor
  · intro hk
    rw [analyze, if_pos hk]
    exact ⟨rfl, by simp⟩
  · intro hk
    refine ⟨?_, ?_, ?_, ?_⟩
    · intro body hh
      rw [analyze, if_neg hk, hh]
      simp
    · intro s body hh hs
      rw [analyze, if_neg hk, hh]
      dsimp only
      by_cases h429 : s = 429
      · rw [if_pos h429]
        exact ⟨rfl, rfl⟩
      · rw [if_neg h429, if_pos hs]
        exact ⟨rfl, rfl⟩
    · intro m hh
      rw [analyze, if_neg hk, hh]
      dsimp only
      exact ⟨rfl, rfl⟩
    · intro m hh
      rw [analyze, if_neg hk, hh]
      dsimp only
      exact ⟨rfl, rfl⟩

theorem analyze_error_spec_witness :
    (analyze ⟨none, HttpOutcome.resp 200 "", 1, 2, ParseOutcome.ok ⟨"sorted", none, none, []⟩⟩).status = "error" ∧
    (analyze ⟨some "key", HttpOutcome.resp 429 "", 1, 2,
        ParseOutcome.ok ⟨"sorted", none, none, []⟩⟩).api_response_time = some 1 ∧
    (analyze ⟨some "key", HttpOutcome.clientError "refused", 1, 2,
        ParseOutcome.ok ⟨"sorted", none, none, []⟩⟩).api_response_time = some 2 :=
  ⟨((analyze_error_spec _).1 (Or.inl rfl)).1,
   ((analyze_error_spec _).2 (by simp) |>.1 "" rfl).2,
   ((analyze_error_spec _).2 (by simp) |>.2.2.1 "refused" rfl).2⟩

lemma find_map_revoke (db : List TokenRow) (token_id : Nat) (r : TokenRow)
    (huniq : db.Pairwise (fun a b => ¬(a.token = b.token))) (hmem : r ∈ db) :
    (db.map (fun x => if x.tid = token_id then { x with is_active := false } else x)).find?
        (fun x => x.token == r.token) =
      some (if r.tid = token_id then { r with is_active := false } else r) := by
  induction db with
  | nil => simp at hmem
  | cons h tl ih =>
      rw [List.pairwise_cons] at huniq
      rcases List.mem_cons.mp hmem with hr | hmem2
      · subst hr
        simp only [List.map_cons, List.find?]
        have htok : (if r.tid = token_id then { r with is_active := false } else r).token
            = r.token := by
          split_ifs <;> rfl
        rw [show ((if r.tid = token_id then { r with is_active := false } else r).token ==
            r.token) = true from by rw [htok]; simp]
      · have hne : ¬(h.token = r.token) := huniq.1 r hmem2
        simp only [List.map_cons, List.find?]
        have htok : (if h.tid = token_id then { h with is_active := false } else h).token
            = h.token := by
          split_ifs <;> rfl
        rw [show ((if h.tid = token_id then { h with is_active := false } else h).token ==
            r.token) = false from by rw [htok]; exact beq_false_of_ne hne]
        exact ih huniq.2 hmem2

theorem revoke_then_verify_spec (db : List TokenRow) (token_id : Nat)
    (huniq : db.Pairwise (fun a b => ¬(a.token = b.token))) :
    (∀ r ∈ db, r.tid = token_id →
        (revoke_api_token db token_id).2 = true ∧
        verify_api_token (revoke_api_token db token_id).1 r.token = false) ∧
    (∀ r ∈ db, ¬(r.tid = token_id) → r.is_active = true →
        verify_api_token (revoke_api_token db token_id).1 r.token = true) := by
  constructor
  · intro r hmem htid
    constructor
    · simp only [revoke_api_token, List.any_eq_true]
      exact ⟨r, hmem, by simp [htid]⟩
    · rw [verify_api_token, revoke_api_token]
      rw [find_map_revoke db token_id r huniq hmem]
      rw [if_pos htid]
  · intro r hmem htid hact
    rw [verify_api_token, revoke_api_token]
    rw [find_map_revoke db token_id r huniq hmem]
    rw [if_neg htid]
    exact hact

theorem revoke_then_verify_spec_witness :
    verify_api_token (revoke_api_token cexTokens 1).1 "tokA" = false ∧
    verify_api_token (revoke_api_token cexTokens 1).1 "tokB" = true :=
  ⟨((revoke_then_verify_spec cexTokens 1 (by decide)).1 ⟨1, "tokA", true⟩ (by decide) rfl).2,
   (revoke_then_verify_spec cexTokens 1 (by decide)).2 ⟨2, "tokB", true⟩ (by decide)
     (by decide) rfl⟩

end TwinSync
